import Mathlib

/-!
Shallow embedding of the Secure-Hash-Algorithm repository (MD5, SHA-1,
SHA-256, SHA-384) and proofs about its claims.

Conventions of the embedding:
- bytes and machine words are natural numbers; every C++ operation that can
  wrap (uint32_t / uint64_t arithmetic, shifts) carries an explicit
  percent-2^32 or percent-2^64;
- vector of bytes / vector of bool become List Nat / List Bool;
- each translation unit of the repository gets its own namespace, with the
  source names kept where Lean allows;
- bounded while-loops are translated as fuel recursion, with the fuel chosen
  to dominate the worst-case iteration count of the source loop, and lemmas
  proving the fuel is never exhausted.
-/

/-- Lowercase hexadecimal alphabet used by the iostream hex output of all
four digest programs. -/
def hexDigits : List Char :=
  ['0', '1', '2', '3', '4', '5', '6', '7'] ++
    ['8', '9', 'a', 'b', 'c', 'd', 'e', 'f']

/-- Single lowercase hex character of a nibble value. -/
def hexDigit (n : Nat) : Char := hexDigits.getD n '0'

/-- Two lowercase hex characters of one byte, zero-padded: models
cout with hex, setfill 0, setw 2 applied to a byte value below 256. -/
def byteToHexChars (b : Nat) : List Char := [hexDigit (b / 16), hexDigit (b % 16)]

/-- Render a byte sequence as a lowercase, unseparated hex string, two
characters per byte. -/
def bytesToHexString (bs : List Nat) : String := String.mk (bs.flatMap byteToHexChars)

/-! ## src/Md5.cpp — one-shot MD5 over a whole in-memory buffer -/

namespace Md5Cpp

/-- Per-round left-rotation amounts, table S of src/Md5.cpp. -/
def S : List Nat :=
  [7, 12, 17, 22, 7, 12, 17, 22, 7, 12, 17, 22, 7, 12, 17, 22,
   5, 9, 14, 20, 5, 9, 14, 20, 5, 9, 14, 20, 5, 9, 14, 20,
   4, 11, 16, 23, 4, 11, 16, 23, 4, 11, 16, 23, 4, 11, 16, 23,
   6, 10, 15, 21, 6, 10, 15, 21, 6, 10, 15, 21, 6, 10, 15, 21]

/-- Round constants, table K of src/Md5.cpp. -/
def K : List Nat :=
  [0xd76aa478, 0xe8c7b756, 0x242070db, 0xc1bdceee,
   0xf57c0faf, 0x4787c62a, 0xa8304613, 0xfd469501,
   0x698098d8, 0x8b44f7af, 0xffff5bb1, 0x895cd7be,
   0x6b901122, 0xfd987193, 0xa679438e, 0x49b40821,
   0xf61e2562, 0xc040b340, 0x265e5a51, 0xe9b6c7aa,
   0xd62f105d, 0x02441453, 0xd8a1e681, 0xe7d3fbc8,
   0x21e1cde6, 0xc33707d6, 0xf4d50d87, 0x455a14ed,
   0xa9e3e905, 0xfcefa3f8, 0x676f02d9, 0x8d2a4c8a,
   0xfffa3942, 0x8771f681, 0x6d9d6122, 0xfde5380c,
   0xa4beea44, 0x4bdecfa9, 0xf6bb4b60, 0xbebfbc70,
   0x289b7ec6, 0xeaa127fa, 0xd4ef3085, 0x04881d05,
   0xd9d4d039, 0xe6db99e5, 0x1fa27cf8, 0xc4ac5665,
   0xf4292244, 0x432aff97, 0xab9423a7, 0xfc93a039,
   0x655b59c3, 0x8f0ccc92, 0xffeff47d, 0x85845dd1,
   0x6fa87e4f, 0xfe2ce6e0, 0xa3014314, 0x4e0811a1,
   0xf7537e82, 0xbd3af235, 0x2ad7d2bb, 0xeb86d391]

/-- leftRotate of src/Md5.cpp: (x shl c) or (x shr (32 - c)) on uint32_t. -/
def leftRotate (x c : Nat) : Nat := (x <<< c) % 4294967296 ||| x >>> (32 - c)

/-- MD5 round function F. -/
def F (x y z : Nat) : Nat := (x &&& y) ||| ((x ^^^ 0xFFFFFFFF) &&& z)

/-- MD5 round function G. -/
def G (x y z : Nat) : Nat := (x &&& z) ||| (y &&& (z ^^^ 0xFFFFFFFF))

/-- MD5 round function H. -/
def H (x y z : Nat) : Nat := x ^^^ y ^^^ z

/-- MD5 round function I. -/
def I (x y z : Nat) : Nat := y ^^^ (x ||| (z ^^^ 0xFFFFFFFF))

/-- Zero-filling while-loop of the padding: push 0x00 bytes while the bit
size is not congruent to 448 mod 512 (fuel-bounded; 63 iterations suffice). -/
def padZeros (pm : List Nat) : Nat → List Nat
  | 0 => pm
  | fuel + 1 => if pm.length * 8 % 512 ≠ 448 then padZeros (pm ++ [0]) fuel else pm

/-- The 64-bit little-endian byte encoding of the original bit length,
appended last by the padding code. -/
def lengthBytesLE (originalLengthBits : Nat) : List Nat :=
  (List.range 8).map fun i => originalLengthBits >>> (i * 8) &&& 255

/-- Full padded message of src/Md5.cpp lines 57 to 70: message bytes, the
0x80 marker, zero fill to 448 mod 512 bits, then the little-endian length. -/
def paddedMessage (message : List Nat) : List Nat :=
  padZeros (message ++ [0x80]) 64 ++
    lengthBytesLE (message.length * 8 % 18446744073709551616)

/-- Sixteen little-endian 32-bit words of one 64-byte chunk. -/
def chunkWords (chunk : List Nat) : List Nat :=
  (List.range 16).map fun j =>
    chunk.getD (j * 4) 0 ||| (chunk.getD (j * 4 + 1) 0) <<< 8 |||
      (chunk.getD (j * 4 + 2) 0) <<< 16 ||| (chunk.getD (j * 4 + 3) 0) <<< 24

/-- One iteration j of the 64-round loop of src/Md5.cpp lines 87 to 108,
acting on the working registers (A, B, C, D). -/
def round (Mw : List Nat) (st : Nat × Nat × Nat × Nat) (j : Nat) :
    Nat × Nat × Nat × Nat :=
  let (A, B, C, D) := st
  let f := if j < 16 then F B C D
    else if j < 32 then G B C D
    else if j < 48 then H B C D
    else I B C D
  let g := if j < 16 then j
    else if j < 32 then (5 * j + 1) % 16
    else if j < 48 then (3 * j + 5) % 16
    else 7 * j % 16
  (D, (B + leftRotate ((A + f + K.getD j 0 + Mw.getD g 0) % 4294967296)
        (S.getD j 0)) % 4294967296, B, C)

/-- Body of the chunk loop of src/Md5.cpp lines 73 to 114: run 64 rounds on
a copy of the state and add the result back word-wise mod 2^32. -/
def processChunk (st : Nat × Nat × Nat × Nat) (chunk : List Nat) :
    Nat × Nat × Nat × Nat :=
  let Mw := chunkWords chunk
  let (A, B, C, D) := (List.range 64).foldl (round Mw) st
  let (a0, b0, c0, d0) := st
  ((a0 + A) % 4294967296, (b0 + B) % 4294967296,
   (c0 + C) % 4294967296, (d0 + D) % 4294967296)

/-- Consecutive 64-byte chunks of the padded message. -/
def chunksOf64 (l : List Nat) : List (List Nat) :=
  (List.range (l.length / 64)).map fun i => (l.drop (64 * i)).take 64

/-- Initial MD5 state (a0, b0, c0, d0) of src/Md5.cpp lines 52 to 55. -/
def initState : Nat × Nat × Nat × Nat :=
  (0x67452301, 0xefcdab89, 0x98badcfe, 0x10325476)

/-- MD5 state after hashing the whole message. -/
def finalState (message : List Nat) : Nat × Nat × Nat × Nat :=
  (chunksOf64 (paddedMessage message)).foldl processChunk initState

/-- Little-endian bytes of one 32-bit state word, as printed by the output
loop of src/Md5.cpp lines 116 to 124 on a little-endian host. -/
def wordBytesLE (w : Nat) : List Nat :=
  [w &&& 255, w >>> 8 &&& 255, w >>> 16 &&& 255, w >>> 24 &&& 255]

/-- The hex digest printed by the one-shot md5 function of src/Md5.cpp. -/
def md5 (message : List Nat) : String :=
  let (a0, b0, c0, d0) := finalState message
  bytesToHexString ([a0, b0, c0, d0].flatMap wordBytesLE)

end Md5Cpp

/-! ## src/src/Md5.cpp — streaming MD5: 64-byte stdin chunks, then padding -/

namespace StreamMd5

/-- Table S of src/src/Md5.cpp (identical values to the one-shot file). -/
def S : List Nat := Md5Cpp.S

/-- Table K of src/src/Md5.cpp (identical values to the one-shot file). -/
def K : List Nat := Md5Cpp.K

/-- leftRotate of src/src/Md5.cpp. -/
def leftRotate (x c : Nat) : Nat := (x <<< c) % 4294967296 ||| x >>> (32 - c)

/-- MD5 round function F. -/
def F (x y z : Nat) : Nat := (x &&& y) ||| ((x ^^^ 0xFFFFFFFF) &&& z)

/-- MD5 round function G. -/
def G (x y z : Nat) : Nat := (x &&& z) ||| (y &&& (z ^^^ 0xFFFFFFFF))

/-- MD5 round function H. -/
def H (x y z : Nat) : Nat := x ^^^ y ^^^ z

/-- MD5 round function I. -/
def I (x y z : Nat) : Nat := y ^^^ (x ||| (z ^^^ 0xFFFFFFFF))

/-- Message index k and shift s of each of the 64 unrolled STEP macro
invocations of the transform (src/src/Md5.cpp lines 61 to 88), in source
order; the K-table index of step number j is j itself. -/
def stepTable : List (Nat × Nat) :=
  [(0, 7), (1, 12), (2, 17), (3, 22), (4, 7), (5, 12), (6, 17), (7, 22),
   (8, 7), (9, 12), (10, 17), (11, 22), (12, 7), (13, 12), (14, 17), (15, 22),
   (1, 5), (6, 9), (11, 14), (0, 20), (5, 5), (10, 9), (15, 14), (4, 20),
   (9, 5), (14, 9), (3, 14), (8, 20), (13, 5), (2, 9), (7, 14), (12, 20),
   (5, 4), (8, 11), (11, 16), (14, 23), (1, 4), (4, 11), (7, 16), (10, 23),
   (13, 4), (0, 11), (3, 16), (6, 23), (9, 4), (12, 11), (15, 16), (2, 23),
   (0, 6), (7, 10), (14, 15), (5, 21), (12, 6), (3, 10), (10, 15), (1, 21),
   (8, 6), (15, 10), (6, 15), (13, 21), (4, 6), (11, 10), (2, 15), (9, 21)]

/-- transform of src/src/Md5.cpp lines 42 to 94: decode 64 bytes into 16
little-endian words, run the 64 unrolled STEP macros (each reads message
word k, round constant K of the step number, and rotates by s), then add
the working registers back into the state mod 2^32. -/
def transform (st : Nat × Nat × Nat × Nat) (block : List Nat) :
    Nat × Nat × Nat × Nat :=
  let Mw := (List.range 16).map fun j =>
    block.getD (j * 4) 0 ||| (block.getD (j * 4 + 1) 0) <<< 8 |||
      (block.getD (j * 4 + 2) 0) <<< 16 ||| (block.getD (j * 4 + 3) 0) <<< 24
  let (a0, b0, c0, d0) := st
  let step := fun (regs : Nat × Nat × Nat × Nat) (j : Nat) =>
    let (a, b, c, d) := regs
    let f := if j < 16 then F b c d
      else if j < 32 then G b c d
      else if j < 48 then H b c d
      else I b c d
    let k := (stepTable.getD j (0, 0)).1
    let s := (stepTable.getD j (0, 0)).2
    let a2 := (a + f + Mw.getD k 0 + K.getD j 0) % 4294967296
    (d, (b + leftRotate a2 s) % 4294967296, b, c)
  let (A, B, C, D) := (List.range 64).foldl step (a0, b0, c0, d0)
  ((a0 + A) % 4294967296, (b0 + B) % 4294967296,
   (c0 + C) % 4294967296, (d0 + D) % 4294967296)

/-- Full 64-byte chunks read by the while loop of main (cin.read succeeds
exactly floor(length / 64) times). -/
def fullChunks (input : List Nat) : List (List Nat) :=
  (List.range (input.length / 64)).map fun i => (input.drop (64 * i)).take 64

/-- Remaining tail bytes after the while loop; its length is the gcount of
the failed final read, input.length mod 64. -/
def tailBytes (input : List Nat) : List Nat :=
  input.drop (64 * (input.length / 64))

/-- Little-endian bytes of the 64-bit totalBits counter. -/
def lengthBytesLE (totalBits : Nat) : List Nat :=
  (List.range 8).map fun i => totalBits >>> (i * 8) &&& 255

/-- Blocks handed to transform after the read loop, in order
(src/src/Md5.cpp lines 136 to 195).  With bytesRead below 56 the redone
logic builds a single block carrying marker, zero fill and length.  With
bytesRead at least 56 the leftover first-attempt code at line 159 already
transforms the padding buffer (tail, 0x80 marker, zero fill); the redone
logic then transforms finalBlock, holding the same bytes, and finally the
zeroed block carrying the length field. -/
def finalBlocks (input : List Nat) : List (List Nat) :=
  let tail := tailBytes input
  let bytesRead := tail.length
  let totalBits := input.length * 8 % 18446744073709551616
  let paddingBlock := tail ++ [0x80] ++ List.replicate (63 - bytesRead) 0
  let oneBlock := tail ++ [0x80] ++ List.replicate (55 - bytesRead) 0 ++
    lengthBytesLE totalBits
  let firstBlock := tail ++ [0x80] ++ List.replicate (63 - bytesRead) 0
  let lengthBlock := List.replicate 56 0 ++ lengthBytesLE totalBits
  if bytesRead < 56 then [oneBlock]
  else [paddingBlock, firstBlock, lengthBlock]

/-- Initial state of main. -/
def initState : Nat × Nat × Nat × Nat :=
  (0x67452301, 0xefcdab89, 0x98badcfe, 0x10325476)

/-- State after the whole run of main on the given stdin bytes. -/
def finalState (input : List Nat) : Nat × Nat × Nat × Nat :=
  (fullChunks input ++ finalBlocks input).foldl transform initState

/-- Little-endian bytes of one 32-bit state word (output loop, LE host). -/
def wordBytesLE (w : Nat) : List Nat :=
  [w &&& 255, w >>> 8 &&& 255, w >>> 16 &&& 255, w >>> 24 &&& 255]

/-- The hex digest printed by the streaming MD5 program. -/
def digest (input : List Nat) : String :=
  let (a0, b0, c0, d0) := finalState input
  bytesToHexString ([a0, b0, c0, d0].flatMap wordBytesLE)

end StreamMd5

/-! ## src/Sha1.cpp — one-shot SHA-1 over a whole in-memory buffer -/

namespace Sha1Cpp

/-- leftRotate of src/Sha1.cpp. -/
def leftRotate (x c : Nat) : Nat := (x <<< c) % 4294967296 ||| x >>> (32 - c)

/-- Zero-filling while-loop of the SHA-1 padding, identical in shape to the
MD5 one (fuel-bounded; 63 iterations suffice). -/
def padZeros (pm : List Nat) : Nat → List Nat
  | 0 => pm
  | fuel + 1 => if pm.length * 8 % 512 ≠ 448 then padZeros (pm ++ [0]) fuel else pm

/-- The 64-bit big-endian byte encoding of the original bit length,
src/Sha1.cpp lines 33 to 36 (loop i from 7 down to 0). -/
def lengthBytesBE (originalLengthBits : Nat) : List Nat :=
  (List.range 8).map fun t => originalLengthBits >>> ((7 - t) * 8) &&& 255

/-- Full padded message of src/Sha1.cpp lines 23 to 36. -/
def paddedMessage (message : List Nat) : List Nat :=
  padZeros (message ++ [0x80]) 64 ++
    lengthBytesBE (message.length * 8 % 18446744073709551616)

/-- Sixteen big-endian 32-bit words of one 64-byte chunk. -/
def chunkWords (chunk : List Nat) : List Nat :=
  (List.range 16).map fun j =>
    (chunk.getD (j * 4) 0) <<< 24 ||| (chunk.getD (j * 4 + 1) 0) <<< 16 |||
      (chunk.getD (j * 4 + 2) 0) <<< 8 ||| chunk.getD (j * 4 + 3) 0

/-- Extension of the 16 words to 80 via the XOR-rotate recurrence,
src/Sha1.cpp lines 50 to 53. -/
def extendWords (w16 : List Nat) : List Nat :=
  (List.range 64).foldl
    (fun w j =>
      w ++ [leftRotate
        (w.getD (j + 16 - 3) 0 ^^^ w.getD (j + 16 - 8) 0 ^^^
          w.getD (j + 16 - 14) 0 ^^^ w.getD (j + 16 - 16) 0) 1])
    w16

/-- One iteration j of the 80-round loop of src/Sha1.cpp lines 61 to 84. -/
def round (w : List Nat) (st : Nat × Nat × Nat × Nat × Nat) (j : Nat) :
    Nat × Nat × Nat × Nat × Nat :=
  let (a, b, c, d, e) := st
  let f := if j < 20 then (b &&& c) ||| ((b ^^^ 0xFFFFFFFF) &&& d)
    else if j < 40 then b ^^^ c ^^^ d
    else if j < 60 then (b &&& c) ||| (b &&& d) ||| (c &&& d)
    else b ^^^ c ^^^ d
  let k := if j < 20 then 0x5A827999
    else if j < 40 then 0x6ED9EBA1
    else if j < 60 then 0x8F1BBCDC
    else 0xCA62C1D6
  let temp := (leftRotate a 5 + f + e + k + w.getD j 0) % 4294967296
  (temp, a, leftRotate b 30, c, d)

/-- Body of the chunk loop of src/Sha1.cpp lines 39 to 91. -/
def processChunk (st : Nat × Nat × Nat × Nat × Nat) (chunk : List Nat) :
    Nat × Nat × Nat × Nat × Nat :=
  let w := extendWords (chunkWords chunk)
  let (a, b, c, d, e) := (List.range 80).foldl (round w) st
  let (h0, h1, h2, h3, h4) := st
  ((h0 + a) % 4294967296, (h1 + b) % 4294967296, (h2 + c) % 4294967296,
   (h3 + d) % 4294967296, (h4 + e) % 4294967296)

/-- Consecutive 64-byte chunks of the padded message. -/
def chunksOf64 (l : List Nat) : List (List Nat) :=
  (List.range (l.length / 64)).map fun i => (l.drop (64 * i)).take 64

/-- Initial SHA-1 state (h0..h4) of src/Sha1.cpp lines 17 to 21. -/
def initState : Nat × Nat × Nat × Nat × Nat :=
  (0x67452301, 0xEFCDAB89, 0x98BADCFE, 0x10325476, 0xC3D2E1F0)

/-- SHA-1 state after hashing the whole message. -/
def finalState (message : List Nat) : Nat × Nat × Nat × Nat × Nat :=
  (chunksOf64 (paddedMessage message)).foldl processChunk initState

/-- Eight lowercase hex characters of one 32-bit word, zero-padded: models
cout with hex, setfill 0 and setw 8 for a value below 2^32. -/
def wordToHex8 (w : Nat) : List Char :=
  [hexDigit (w >>> 28 &&& 15), hexDigit (w >>> 24 &&& 15),
   hexDigit (w >>> 20 &&& 15), hexDigit (w >>> 16 &&& 15),
   hexDigit (w >>> 12 &&& 15), hexDigit (w >>> 8 &&& 15),
   hexDigit (w >>> 4 &&& 15), hexDigit (w &&& 15)]

/-- The hex digest printed by the sha1 function of src/Sha1.cpp. -/
def sha1 (message : List Nat) : String :=
  let (h0, h1, h2, h3, h4) := finalState message
  String.mk ([h0, h1, h2, h3, h4].flatMap wordToHex8)

end Sha1Cpp

/-! ## src/src/Sha1.cpp — streaming SHA-1: the per-block transform -/

namespace StreamSha1

/-- leftRotate of src/src/Sha1.cpp. -/
def leftRotate (x c : Nat) : Nat := (x <<< c) % 4294967296 ||| x >>> (32 - c)

/-- transform of src/src/Sha1.cpp lines 17 to 77: decode sixteen big-endian
words, extend to 80, run the four 20-round loops, add back mod 2^32. -/
def transform (st : Nat × Nat × Nat × Nat × Nat) (block : List Nat) :
    Nat × Nat × Nat × Nat × Nat :=
  let w16 := (List.range 16).map fun j =>
    (block.getD (j * 4) 0) <<< 24 ||| (block.getD (j * 4 + 1) 0) <<< 16 |||
      (block.getD (j * 4 + 2) 0) <<< 8 ||| block.getD (j * 4 + 3) 0
  let w := (List.range 64).foldl
    (fun w j =>
      w ++ [leftRotate
        (w.getD (j + 16 - 3) 0 ^^^ w.getD (j + 16 - 8) 0 ^^^
          w.getD (j + 16 - 14) 0 ^^^ w.getD (j + 16 - 16) 0) 1])
    w16
  let (h0, h1, h2, h3, h4) := st
  let step := fun (regs : Nat × Nat × Nat × Nat × Nat) (j : Nat) =>
    let (a, b, c, d, e) := regs
    let f := if j < 20 then (b &&& c) ||| ((b ^^^ 0xFFFFFFFF) &&& d)
      else if j < 40 then b ^^^ c ^^^ d
      else if j < 60 then (b &&& c) ||| (b &&& d) ||| (c &&& d)
      else b ^^^ c ^^^ d
    let k := if j < 20 then 0x5A827999
      else if j < 40 then 0x6ED9EBA1
      else if j < 60 then 0x8F1BBCDC
      else 0xCA62C1D6
    let temp := (leftRotate a 5 + f + e + k + w.getD j 0) % 4294967296
    (temp, a, leftRotate b 30, c, d)
  let (a, b, c, d, e) := (List.range 80).foldl step (h0, h1, h2, h3, h4)
  ((h0 + a) % 4294967296, (h1 + b) % 4294967296, (h2 + c) % 4294967296,
   (h3 + d) % 4294967296, (h4 + e) % 4294967296)

end StreamSha1

/-- Most-significant-first bit list of a 32-bit word, as pushed by the
digest loop of src/Sha256.cpp lines 90 to 92 (j from 31 down to 0). -/
def wordBitsBE32 (w : Nat) : List Bool :=
  (List.range 32).map fun t => w >>> (31 - t) &&& 1 == 1

/-- Most-significant-first bit list of a 64-bit word, as pushed by the
digest loop of src/src/Sha384.cpp lines 96 to 98 (j from 63 down to 0). -/
def wordBitsBE64 (w : Nat) : List Bool :=
  (List.range 64).map fun t => w >>> (63 - t) &&& 1 == 1

/-! ## src/sha.h — shared bit-vector helpers for SHA-256 / SHA-384 -/

namespace ShaHeader

/-- TextToBinaryString of src/sha.h: each input byte contributes its eight
bits most-significant first (bitset index 7 down to 0). -/
def TextToBinaryString (words : List Nat) : List Bool :=
  words.flatMap fun c => (List.range 8).map fun t => c >>> (7 - t) &&& 1 == 1

/-- bitsToUsignedInt of src/sha.h: shifts in bits starting at position
start.  The loop bound is the literal 32 for BOTH template instantiations,
including the uint64_t one used by SHA-384; the running value never exceeds
2^32, so no width reduction is needed in either instantiation. -/
def bitsToUsignedInt (bits : List Bool) (start : Nat) : Nat :=
  (List.range 32).foldl
    (fun value i =>
      if bits.getD (start + i) false then value <<< 1 ||| 1 else value <<< 1 ||| 0)
    0

/-- rotateRightByN of src/sha.h on a word of width digestsBit bits; at
every call site digestsBit coincides with the bit width of the template
type T, so the left shift wraps at 2^digestsBit. -/
def rotateRightByN (x n digestsBit : Nat) : Nat :=
  x >>> n ||| (x <<< (digestsBit - n)) % 2 ^ digestsBit

/-- Value accumulated by the inner j-loop of bitsetToHex at bit offset i:
bit i+j contributes 1 shl (3-j). -/
def nibbleValue (bits : List Bool) (i : Nat) : Nat :=
  (List.range 4).foldl
    (fun value j => if bits.getD (i + j) false then value ||| 1 <<< (3 - j) else value)
    0

/-- Character list built by bitsetToHex of src/sha.h: nibble characters for
offsets digestsBit-4 down to 0 in steps of 4, then the string reversal. -/
def bitsetToHexChars (bits : List Bool) (digestsBit : Nat) : List Char :=
  ((List.range (digestsBit / 4)).map fun t =>
    hexDigit (nibbleValue bits (digestsBit - 4 - 4 * t))).reverse

/-- bitsetToHex of src/sha.h. -/
def bitsetToHex (bits : List Bool) (digestsBit : Nat) : String :=
  String.mk (bitsetToHexChars bits digestsBit)

end ShaHeader

/-! ## src/Sha256.cpp — SHA-256 over bit vectors -/

namespace Sha256Cpp

/-- Counting loop of preProcessing, src/Sha256.cpp lines 12 to 18: raise k
while (length + 1 + k + 64) is not divisible by 512 (fuel-bounded; 511
iterations suffice). -/
def countK (length k : Nat) : Nat → Nat
  | 0 => k
  | fuel + 1 =>
    if (length + 1 + k + 64) % 512 ≠ 0 then countK length (k + 1) fuel else k

/-- The 64 big-endian bits of the length field, pushed for i from 63 down
to 0 (src/Sha256.cpp lines 20 to 22). -/
def lengthBitsBE (length : Nat) : List Bool :=
  (List.range 64).map fun t => length >>> (63 - t) &&& 1 == 1

/-- preProcessing of src/Sha256.cpp: append the 1 bit, k zero bits and the
64-bit big-endian length field to the bit message. -/
def preProcessing (length : Nat) (binMessage : List Bool) : List Bool :=
  binMessage ++ [true] ++ List.replicate (countK length 0 512) false ++
    lengthBitsBE length

/-- Initial hash values H of src/Sha256.cpp. -/
def H : List Nat :=
  [0x6a09e667, 0xbb67ae85, 0x3c6ef372, 0xa54ff53a,
   0x510e527f, 0x9b05688c, 0x1f83d9ab, 0x5be0cd19]

/-- Round constants K of src/Sha256.cpp. -/
def K : List Nat :=
  [0x428a2f98, 0x71374491, 0xb5c0fbcf, 0xe9b5dba5, 0x3956c25b, 0x59f111f1,
   0x923f82a4, 0xab1c5ed5] ++
  [0xd807aa98, 0x12835b01, 0x243185be, 0x550c7dc3, 0x72be5d74, 0x80deb1fe,
   0x9bdc06a7, 0xc19bf174] ++
  [0xe49b69c1, 0xefbe4786, 0x0fc19dc6, 0x240ca1cc, 0x2de92c6f, 0x4a7484aa,
   0x5cb0a9dc, 0x76f988da] ++
  [0x983e5152, 0xa831c66d, 0xb00327c8, 0xbf597fc7, 0xc6e00bf3, 0xd5a79147,
   0x06ca6351, 0x14292967] ++
  [0x27b70a85, 0x2e1b2138, 0x4d2c6dfc, 0x53380d13, 0x650a7354, 0x766a0abb,
   0x81c2c92e, 0x92722c85] ++
  [0xa2bfe8a1, 0xa81a664b, 0xc24b8b70, 0xc76c51a3, 0xd192e819, 0xd6990624,
   0xf40e3585, 0x106aa070] ++
  [0x19a4c116, 0x1e376c08, 0x2748774c, 0x34b0bcb5, 0x391c0cb3, 0x4ed8aa4a,
   0x5b9cca4f, 0x682e6ff3] ++
  [0x748f82ee, 0x78a5636f, 0x84c87814, 0x8cc70208, 0x90befffa, 0xa4506ceb,
   0xbef9a3f7, 0xc67178f2]

/-- Message schedule of one 512-bit chunk: sixteen 32-bit loads followed by
the sigma-recurrence extension to 64 words (src/Sha256.cpp lines 38 to 50). -/
def chunkSchedule (binMessage : List Bool) (chunkIter : Nat) : List Nat :=
  let w16 := (List.range 16).map fun i =>
    ShaHeader.bitsToUsignedInt binMessage (chunkIter * 512 + i * 32)
  (List.range 48).foldl
    (fun w t =>
      let i := t + 16
      let s0 := ShaHeader.rotateRightByN (w.getD (i - 15) 0) 7 32 ^^^
        ShaHeader.rotateRightByN (w.getD (i - 15) 0) 18 32 ^^^
        (w.getD (i - 15) 0) >>> 3
      let s1 := ShaHeader.rotateRightByN (w.getD (i - 2) 0) 17 32 ^^^
        ShaHeader.rotateRightByN (w.getD (i - 2) 0) 19 32 ^^^
        (w.getD (i - 2) 0) >>> 10
      w ++ [(w.getD (i - 16) 0 + s0 + w.getD (i - 7) 0 + s1) % 4294967296])
    w16

/-- One iteration of the 64-round compression loop of src/Sha256.cpp
lines 62 to 78. -/
def round (w : List Nat)
    (st : Nat × Nat × Nat × Nat × Nat × Nat × Nat × Nat) (i : Nat) :
    Nat × Nat × Nat × Nat × Nat × Nat × Nat × Nat :=
  let (a, b, c, d, e, f, g, h) := st
  let S1 := ShaHeader.rotateRightByN e 6 32 ^^^ ShaHeader.rotateRightByN e 11 32 ^^^
    ShaHeader.rotateRightByN e 25 32
  let ch := (e &&& f) ^^^ ((e ^^^ 0xFFFFFFFF) &&& g)
  let temp1 := (h + S1 + ch + K.getD i 0 + w.getD i 0) % 4294967296
  let S0 := ShaHeader.rotateRightByN a 2 32 ^^^ ShaHeader.rotateRightByN a 13 32 ^^^
    ShaHeader.rotateRightByN a 22 32
  let maj := (a &&& b) ^^^ (a &&& c) ^^^ (b &&& c)
  let temp2 := (S0 + maj) % 4294967296
  ((temp1 + temp2) % 4294967296, a, b, c, (d + temp1) % 4294967296, e, f, g)

/-- Body of the chunk loop of src/Sha256.cpp lines 37 to 88: 64 rounds on
the running state, then word-wise addition mod 2^32. -/
def processChunk (binMessage : List Bool)
    (st : Nat × Nat × Nat × Nat × Nat × Nat × Nat × Nat) (chunkIter : Nat) :
    Nat × Nat × Nat × Nat × Nat × Nat × Nat × Nat :=
  let w := chunkSchedule binMessage chunkIter
  let (a, b, c, d, e, f, g, h) := (List.range 64).foldl (round w) st
  let (s0, s1, s2, s3, s4, s5, s6, s7) := st
  ((s0 + a) % 4294967296, (s1 + b) % 4294967296, (s2 + c) % 4294967296,
   (s3 + d) % 4294967296, (s4 + e) % 4294967296, (s5 + f) % 4294967296,
   (s6 + g) % 4294967296, (s7 + h) % 4294967296)

/-- Error branch of processing, src/Sha256.cpp lines 34 to 35: reports when
the padded bit length is not a multiple of 512. -/
def errorBranch (binMessage : List Bool) : Bool := binMessage.length % 512 != 0

/-- The eight sqrtTemp words after the chunk loop of processing. -/
def finalWords (binMessage : List Bool) : List Nat :=
  let init := (H.getD 0 0, H.getD 1 0, H.getD 2 0, H.getD 3 0,
    H.getD 4 0, H.getD 5 0, H.getD 6 0, H.getD 7 0)
  let s := (List.range (binMessage.length / 512)).foldl (processChunk binMessage) init
  [s.1, s.2.1, s.2.2.1, s.2.2.2.1, s.2.2.2.2.1, s.2.2.2.2.2.1,
   s.2.2.2.2.2.2.1, s.2.2.2.2.2.2.2]

/-- Digest bit vector returned by processing: the final eight 32-bit words,
each most-significant bit first (src/Sha256.cpp lines 89 to 93). -/
def processing (binMessage : List Bool) : List Bool :=
  (finalWords binMessage).flatMap wordBitsBE32

/-- Padded bit message built by sha256 for a byte message. -/
def paddedBits (strMessage : List Nat) : List Bool :=
  let binMessage := ShaHeader.TextToBinaryString strMessage
  preProcessing binMessage.length binMessage

/-- The hex digest printed by the sha256 function of src/Sha256.cpp (the
hash vector has exactly 256 entries, copied one-for-one into the
bitset<256> digest). -/
def sha256 (strMessage : List Nat) : String :=
  ShaHeader.bitsetToHex (processing (paddedBits strMessage)) 256

end Sha256Cpp

/-! ## src/src/Sha384.cpp — SHA-384 over bit vectors (1024-bit blocks) -/

namespace Sha384Cpp

/-- Counting loop of preProcessing, src/src/Sha384.cpp lines 13 to 20:
raise k while (length + 1 + k + 128) is not divisible by 1024
(fuel-bounded; 1023 iterations suffice). -/
def countK (length k : Nat) : Nat → Nat
  | 0 => k
  | fuel + 1 =>
    if (length + 1 + k + 128) % 1024 ≠ 0 then countK length (k + 1) fuel else k

/-- The 128 bits of the length field, pushed for i from 127 down to 0: zero
for i at least 64, the big-endian bits of the 64-bit length below
(src/src/Sha384.cpp lines 22 to 28). -/
def lengthBits128BE (length : Nat) : List Bool :=
  (List.range 128).map fun t =>
    if 127 - t < 64 then length >>> (127 - t) &&& 1 == 1 else false

/-- preProcessing of src/src/Sha384.cpp. -/
def preProcessing (length : Nat) (binMessage : List Bool) : List Bool :=
  binMessage ++ [true] ++ List.replicate (countK length 0 1024) false ++
    lengthBits128BE length

/-- Initial hash values H of src/src/Sha384.cpp. -/
def H : List Nat :=
  [0xcbbb9d5dc1059ed8, 0x629a292a367cd507, 0x9159015a3070dd17,
   0x152fecd8f70e5939, 0x67332667ffc00b31, 0x8eb44a8768581511,
   0xdb0c2e0d64f98fa7, 0x47b5481dbefa4fa4]

/-- Round constants K of src/src/Sha384.cpp. -/
def K : List Nat :=
  [0x428a2f98d728ae22, 0x7137449123ef65cd, 0xb5c0fbcfec4d3b2f, 0xe9b5dba58189dbbc,
   0x3956c25bf348b538, 0x59f111f1b605d019, 0x923f82a4af194f9b, 0xab1c5ed5da6d8118] ++
  [0xd807aa98a3030242, 0x12835b0145706fbe, 0x243185be4ee4b28c, 0x550c7dc3d5ffb4e2,
   0x72be5d74f27b896f, 0x80deb1fe3b1696b1, 0x9bdc06a725c71235, 0xc19bf174cf692694] ++
  [0xe49b69c19ef14ad2, 0xefbe4786384f25e3, 0x0fc19dc68b8cd5b5, 0x240ca1cc77ac9c65,
   0x2de92c6f592b0275, 0x4a7484aa6ea6e483, 0x5cb0a9dcbd41fbd4, 0x76f988da831153b5] ++
  [0x983e5152ee66dfab, 0xa831c66d2db43210, 0xb00327c898fb213f, 0xbf597fc7beef0ee4,
   0xc6e00bf33da88fc2, 0xd5a79147930aa725, 0x06ca6351e003826f, 0x142929670a0e6e70] ++
  [0x27b70a8546d22ffc, 0x2e1b21385c26c926, 0x4d2c6dfc5ac42aed, 0x53380d139d95b3df,
   0x650a73548baf63de, 0x766a0abb3c77b2a8, 0x81c2c92e47edaee6, 0x92722c851482353b] ++
  [0xa2bfe8a14cf10364, 0xa81a664bbc423001, 0xc24b8b70d0f89791, 0xc76c51a30654be30,
   0xd192e819d6ef5218, 0xd69906245565a910, 0xf40e35855771202a, 0x106aa07032bbd1b8] ++
  [0x19a4c116b8d2d0c8, 0x1e376c085141ab53, 0x2748774cdf8eeb99, 0x34b0bcb5e19b48a8,
   0x391c0cb3c5c95a63, 0x4ed8aa4ae3418acb, 0x5b9cca4f7763e373, 0x682e6ff3d6b2b8a3] ++
  [0x748f82ee5defb2fc, 0x78a5636f43172f60, 0x84c87814a1f0ab72, 0x8cc702081a6439ec,
   0x90befffa23631e28, 0xa4506cebde82bde9, 0xbef9a3f7b2c67915, 0xc67178f2e372532b] ++
  [0xca273eceea26619c, 0xd186b8c721c0c207, 0xeada7dd6cde0eb1e, 0xf57d4f7fee6ed178,
   0x06f067aa72176fba, 0x0a637dc5a2c898a6, 0x113f9804bef90dae, 0x1b710b35131c471b] ++
  [0x28db77f523047d84, 0x32caab7b40c72493, 0x3c9ebe0a15c9bebc, 0x431d67c49c100d4c,
   0x4cc5d4becb3e42b6, 0x597f299cfc657e2a, 0x5fcb6fab3ad6faec, 0x6c44198c4a475817]

/-- Message schedule of one 1024-bit chunk: sixteen word loads at 64-bit
strides — each load shifts in only 32 bits since bitsToUsignedInt hardcodes
the 32-iteration loop — then the sigma extension to 80 words
(src/src/Sha384.cpp lines 43 to 55). -/
def chunkSchedule (binMessage : List Bool) (chunkIter : Nat) : List Nat :=
  let w16 := (List.range 16).map fun i =>
    ShaHeader.bitsToUsignedInt binMessage (chunkIter * 1024 + i * 64)
  (List.range 64).foldl
    (fun w t =>
      let i := t + 16
      let s0 := ShaHeader.rotateRightByN (w.getD (i - 15) 0) 1 64 ^^^
        ShaHeader.rotateRightByN (w.getD (i - 15) 0) 8 64 ^^^
        (w.getD (i - 15) 0) >>> 7
      let s1 := ShaHeader.rotateRightByN (w.getD (i - 2) 0) 19 64 ^^^
        ShaHeader.rotateRightByN (w.getD (i - 2) 0) 61 64 ^^^
        (w.getD (i - 2) 0) >>> 6
      w ++ [(w.getD (i - 16) 0 + s0 + w.getD (i - 7) 0 + s1) %
        18446744073709551616])
    w16

/-- One iteration of the 80-round compression loop of src/src/Sha384.cpp
lines 67 to 83. -/
def round (w : List Nat)
    (st : Nat × Nat × Nat × Nat × Nat × Nat × Nat × Nat) (i : Nat) :
    Nat × Nat × Nat × Nat × Nat × Nat × Nat × Nat :=
  let (a, b, c, d, e, f, g, h) := st
  let S1 := ShaHeader.rotateRightByN e 14 64 ^^^ ShaHeader.rotateRightByN e 18 64 ^^^
    ShaHeader.rotateRightByN e 41 64
  let ch := (e &&& f) ^^^ ((e ^^^ 0xFFFFFFFFFFFFFFFF) &&& g)
  let temp1 := (h + S1 + ch + K.getD i 0 + w.getD i 0) % 18446744073709551616
  let S0 := ShaHeader.rotateRightByN a 28 64 ^^^ ShaHeader.rotateRightByN a 34 64 ^^^
    ShaHeader.rotateRightByN a 39 64
  let maj := (a &&& b) ^^^ (a &&& c) ^^^ (b &&& c)
  let temp2 := (S0 + maj) % 18446744073709551616
  ((temp1 + temp2) % 18446744073709551616, a, b, c,
   (d + temp1) % 18446744073709551616, e, f, g)

/-- Body of the chunk loop of src/src/Sha384.cpp lines 42 to 93. -/
def processChunk (binMessage : List Bool)
    (st : Nat × Nat × Nat × Nat × Nat × Nat × Nat × Nat) (chunkIter : Nat) :
    Nat × Nat × Nat × Nat × Nat × Nat × Nat × Nat :=
  let w := chunkSchedule binMessage chunkIter
  let (a, b, c, d, e, f, g, h) := (List.range 80).foldl (round w) st
  let (s0, s1, s2, s3, s4, s5, s6, s7) := st
  ((s0 + a) % 18446744073709551616, (s1 + b) % 18446744073709551616,
   (s2 + c) % 18446744073709551616, (s3 + d) % 18446744073709551616,
   (s4 + e) % 18446744073709551616, (s5 + f) % 18446744073709551616,
   (s6 + g) % 18446744073709551616, (s7 + h) % 18446744073709551616)

/-- Error branch of processing, src/src/Sha384.cpp lines 39 to 40. -/
def errorBranch (binMessage : List Bool) : Bool := binMessage.length % 1024 != 0

/-- The first six sqrtTemp words after the chunk loop of processing (SHA-384
truncates the 8-word state to 6 words, 384 bits). -/
def finalWords (binMessage : List Bool) : List Nat :=
  let init := (H.getD 0 0, H.getD 1 0, H.getD 2 0, H.getD 3 0,
    H.getD 4 0, H.getD 5 0, H.getD 6 0, H.getD 7 0)
  let s := (List.range (binMessage.length / 1024)).foldl (processChunk binMessage) init
  [s.1, s.2.1, s.2.2.1, s.2.2.2.1, s.2.2.2.2.1, s.2.2.2.2.2.1]

/-- Digest bit vector returned by processing: the first six 64-bit words of
the final state, each most-significant bit first (src/src/Sha384.cpp
lines 94 to 99). -/
def processing (binMessage : List Bool) : List Bool :=
  (finalWords binMessage).flatMap wordBitsBE64

/-- Padded bit message built by sha384 for a byte message. -/
def paddedBits (strMessage : List Nat) : List Bool :=
  let binMessage := ShaHeader.TextToBinaryString strMessage
  preProcessing binMessage.length binMessage

/-- The hex digest printed by the sha384 function of src/src/Sha384.cpp
(the hash vector has exactly 384 entries, copied one-for-one into the
bitset<384> digest). -/
def sha384 (strMessage : List Nat) : String :=
  ShaHeader.bitsetToHex (processing (paddedBits strMessage)) 384

end Sha384Cpp

/-! ## Spec-side definitions used for refinement statements

The following definitions restate section 4.4 of the design document
(DigestFormatter): serialize the HashState words into bytes in the
algorithm's canonical order — little-endian per word for MD5, big-endian
per word for SHA-1 / SHA-256 / SHA-384 — and render the bytes as lowercase
zero-padded hex.  They are compared against the code-side output. -/

/-- Spec-side little-endian byte serialization of a 32-bit word. -/
def specWordBytesLE32 (w : Nat) : List Nat :=
  [w &&& 255, w >>> 8 &&& 255, w >>> 16 &&& 255, w >>> 24 &&& 255]

/-- Spec-side big-endian byte serialization of a 32-bit word. -/
def specWordBytesBE32 (w : Nat) : List Nat :=
  [w >>> 24 &&& 255, w >>> 16 &&& 255, w >>> 8 &&& 255, w &&& 255]

/-- Spec-side big-endian byte serialization of a 64-bit word. -/
def specWordBytesBE64 (w : Nat) : List Nat :=
  [w >>> 56 &&& 255, w >>> 48 &&& 255, w >>> 40 &&& 255, w >>> 32 &&& 255,
   w >>> 24 &&& 255, w >>> 16 &&& 255, w >>> 8 &&& 255, w &&& 255]

/-- The four MD5 state words after hashing, as a list. -/
def md5StateWords (message : List Nat) : List Nat :=
  let s := Md5Cpp.finalState message
  [s.1, s.2.1, s.2.2.1, s.2.2.2]

/-- The five SHA-1 state words after hashing, as a list. -/
def sha1StateWords (message : List Nat) : List Nat :=
  let s := Sha1Cpp.finalState message
  [s.1, s.2.1, s.2.2.1, s.2.2.2.1, s.2.2.2.2]

/-- Rotation counts passed to leftRotate by the SHA-1 code: 1 in the
message-schedule extension, 5 and 30 in every round (src/Sha1.cpp lines 52,
78 and 81; the same call sites appear in src/src/Sha1.cpp). -/
def sha1RotationCounts : List Nat := [1, 5, 30]

/-- Rotation counts passed to rotateRightByN by src/Sha256.cpp: 7 and 18 in
s0, 17 and 19 in s1, 6, 11 and 25 in S1, 2, 13 and 22 in S0 (word width 32). -/
def sha256RotationCounts : List Nat := [7, 18, 17, 19, 6, 11, 25, 2, 13, 22]

/-- Rotation counts passed to rotateRightByN by src/src/Sha384.cpp: 1 and 8
in s0, 19 and 61 in s1, 14, 18 and 41 in S1, 28, 34 and 39 in S0 (word
width 64). -/
def sha384RotationCounts : List Nat := [1, 8, 19, 61, 14, 18, 41, 28, 34, 39]

/-! ## Claims -/

set_option maxRecDepth 100000
set_option maxHeartbeats 16000000

/-- C1: the claim states that for every byte sequence the streaming MD5
program produces the same digest as the one-shot md5 function.  This fails:
for the 63-zero-byte message (tail of 63 unconsumed bytes) the leftover
first-attempt transform at src/src/Md5.cpp line 159 compresses the tail
content block a second time, and the two digests differ.  For comparison,
on a message whose tail is below 56 bytes (here 10 zero bytes) the two
programs agree. -/
theorem c1_streaming_oneshot_mismatch :
    StreamMd5.digest (List.replicate 63 0) ≠ Md5Cpp.md5 (List.replicate 63 0) ∧
    StreamMd5.digest (List.replicate 10 0) = Md5Cpp.md5 (List.replicate 10 0) := by
  constructor <;> decide

/-- C2: the claim states that for a final tail of at least 56 bytes the
streaming MD5 program feeds exactly two final blocks to the compression
function and produces the correct MD5 digest.  This fails: for the 63-byte
message of zero bytes the program feeds three final blocks (the tail block
twice, then the length block) and prints a digest different from the true
MD5 value 65cecfb980d72fde57d175d6ec1c3f64 computed by the one-shot md5. -/
theorem c2_two_block_padding_violated :
    (StreamMd5.finalBlocks (List.replicate 63 0)).length = 3 ∧
    StreamMd5.finalBlocks (List.replicate 63 0) =
      [List.replicate 63 0 ++ [0x80], List.replicate 63 0 ++ [0x80],
       List.replicate 56 0 ++ [0xF8, 1, 0, 0, 0, 0, 0, 0]] ∧
    StreamMd5.digest (List.replicate 63 0) = "55ac0af17c261c131d1cba3caefed71d" ∧
    Md5Cpp.md5 (List.replicate 63 0) = "65cecfb980d72fde57d175d6ec1c3f64" := by
  refine ⟨by decide, by decide, by decide, by decide⟩

/-- Concrete evaluation stage: padded bit message of the empty input. -/
theorem sha384_empty_padded :
    Sha384Cpp.paddedBits [] = true :: List.replicate 1023 false := by decide

theorem sha384_empty_finalWords :
    Sha384Cpp.finalWords (true :: List.replicate 1023 false) =
      [8721140033206974576, 9921907091858672216, 5535988850293277173,
       7434777218820232792, 6357726538114093319, 9740271193425466315] := by
  decide

theorem sha384_empty_hex :
    ShaHeader.bitsetToHex
      ([8721140033206974576, 9921907091858672216, 5535988850293277173,
        7434777218820232792, 6357726538114093319,
        9740271193425466315].flatMap wordBitsBE64) 384 =
    "7907b6a753bd787089b1b1ee78aa4a584cd3c887464101f5672da27d47f25658583b2e9a0b5d5107872c650b541853cb" := by
  decide

theorem sha384_empty_load :
    ShaHeader.bitsToUsignedInt (true :: List.replicate 1023 false) 0 =
      0x80000000 := by decide

/-- C3: the claim states that sha384 of the empty message yields the
published standard vector, with the sixteen 64-bit words loaded correctly
from the bit vector.  This fails: bitsToUsignedInt of src/sha.h shifts in
only 32 bits even in its uint64_t instantiation, so every 64-bit word is
loaded wrong (the first word of the padded empty message loads as
0x80000000 instead of 0x8000000000000000) and sha384 of the empty string
prints a different digest. -/
theorem c3_sha384_empty_vector_mismatch :
    Sha384Cpp.sha384 [] ≠
      "38b060a751ac96384cd9327eb1b1e36a21fdb71114be07434c0cc7bf63f6e1da274edebfe76f65fbd51ad2f14898b95b" ∧
    Sha384Cpp.sha384 [] =
      "7907b6a753bd787089b1b1ee78aa4a584cd3c887464101f5672da27d47f25658583b2e9a0b5d5107872c650b541853cb" ∧
    ShaHeader.bitsToUsignedInt (Sha384Cpp.paddedBits []) 0 = 0x80000000 := by
  have hdig : Sha384Cpp.sha384 [] =
      "7907b6a753bd787089b1b1ee78aa4a584cd3c887464101f5672da27d47f25658583b2e9a0b5d5107872c650b541853cb" := by
    rw [Sha384Cpp.sha384, Sha384Cpp.processing, sha384_empty_padded,
      sha384_empty_finalWords, sha384_empty_hex]
  refine ⟨?_, hdig, ?_⟩
  · rw [hdig]
    decide
  · rw [sha384_empty_padded, sha384_empty_load]

/-- C4 counterexample: sha1 applied to the bytes of abc does not produce
the 39-character string listed in the spec (the spec dropped the final
hex character). -/
theorem c4_sha1_abc_spec_vector_false :
    Sha1Cpp.sha1 [0x61, 0x62, 0x63] ≠ "a9993e364706816aba3e25717850c26c9cd0d89" := by
  decide

/-- C4 amended: sha1 applied to the bytes of abc produces the 40-character
standard digest a9993e364706816aba3e25717850c26c9cd0d89d. -/
theorem c4_sha1_abc_digest :
    Sha1Cpp.sha1 [0x61, 0x62, 0x63] = "a9993e364706816aba3e25717850c26c9cd0d89d" := by
  decide

/-- C7: the one-shot md5 function maps the empty message to the standard
digest d41d8cd98f00b204e9800998ecf8427e, through the single-block padding
path: the 0x80 marker, 55 zero bytes, and an all-zero length field. -/
theorem c7_md5_empty_vector :
    Md5Cpp.md5 [] = "d41d8cd98f00b204e9800998ecf8427e" ∧
    Md5Cpp.paddedMessage [] = 0x80 :: (List.replicate 55 0 ++ List.replicate 8 0) := by
  constructor <;> decide

/-- C9: each of the four per-block transforms is a deterministic pure
function of the pair (state, block): identical state and block inputs give
identical output states, and nothing else enters the computation (the
embedded transforms are closed functions over their two arguments and the
constant tables). -/
theorem c9_compression_deterministic :
    (∀ (s s' : Nat × Nat × Nat × Nat) (b b' : List Nat), s = s' → b = b' →
      StreamMd5.transform s b = StreamMd5.transform s' b') ∧
    (∀ (s s' : Nat × Nat × Nat × Nat × Nat) (b b' : List Nat), s = s' → b = b' →
      StreamSha1.transform s b = StreamSha1.transform s' b') ∧
    (∀ (s s' : Nat × Nat × Nat × Nat × Nat × Nat × Nat × Nat)
      (m m' : List Bool) (i i' : Nat), s = s' → m = m' → i = i' →
      Sha256Cpp.processChunk m s i = Sha256Cpp.processChunk m' s' i') ∧
    (∀ (s s' : Nat × Nat × Nat × Nat × Nat × Nat × Nat × Nat)
      (m m' : List Bool) (i i' : Nat), s = s' → m = m' → i = i' →
      Sha384Cpp.processChunk m s i = Sha384Cpp.processChunk m' s' i') := by
  refine ⟨?_, ?_, ?_, ?_⟩
  · intro s s' b b' hs hb; rw [hs, hb]
  · intro s s' b b' hs hb; rw [hs, hb]
  · intro s s' m m' i i' hs hm hi; rw [hs, hm, hi]
  · intro s s' m m' i i' hs hm hi; rw [hs, hm, hi]

/-- C9 witness: the determinism statement applied at concrete states and
blocks, every hypothesis discharged by rfl. -/
theorem c9_compression_deterministic_witness :
    StreamMd5.transform StreamMd5.initState (List.replicate 64 0) =
      StreamMd5.transform StreamMd5.initState (List.replicate 64 0) ∧
    StreamSha1.transform (0, 1, 2, 3, 4) (List.replicate 64 0) =
      StreamSha1.transform (0, 1, 2, 3, 4) (List.replicate 64 0) ∧
    Sha256Cpp.processChunk (List.replicate 512 false) (0, 1, 2, 3, 4, 5, 6, 7) 0 =
      Sha256Cpp.processChunk (List.replicate 512 false) (0, 1, 2, 3, 4, 5, 6, 7) 0 ∧
    Sha384Cpp.processChunk (List.replicate 1024 false) (0, 1, 2, 3, 4, 5, 6, 7) 0 =
      Sha384Cpp.processChunk (List.replicate 1024 false) (0, 1, 2, 3, 4, 5, 6, 7) 0 :=
  ⟨c9_compression_deterministic.1 _ _ _ _ rfl rfl,
   c9_compression_deterministic.2.1 _ _ _ _ rfl rfl,
   c9_compression_deterministic.2.2.1 _ _ _ _ _ _ rfl rfl rfl,
   c9_compression_deterministic.2.2.2 _ _ _ _ _ _ rfl rfl rfl⟩

/-- C10: every rotation count used by the four algorithms lies strictly
between 0 and the word width: the MD5 table S (used per round by the
one-shot loop) and the shift components of the 64 unrolled streaming steps
lie in 4..23; the SHA-1 counts are 1, 5 and 30; the SHA-256 sigma counts
lie in 1..61 and below 32; the SHA-384 sigma counts lie in 1..61 and below
64.  Hence no component shift of leftRotate or rotateRightByN ever shifts
by the full word width. -/
theorem c10_rotation_counts_in_range :
    (∀ j, j < 64 → 0 < Md5Cpp.S.getD j 0 ∧ Md5Cpp.S.getD j 0 < 32 ∧
      4 ≤ Md5Cpp.S.getD j 0 ∧ Md5Cpp.S.getD j 0 ≤ 23) ∧
    (∀ p ∈ StreamMd5.stepTable, 0 < p.2 ∧ p.2 < 32 ∧ 4 ≤ p.2 ∧ p.2 ≤ 23) ∧
    (∀ c ∈ sha1RotationCounts, 0 < c ∧ c < 32) ∧
    (∀ c ∈ sha256RotationCounts, 0 < c ∧ c < 32 ∧ 1 ≤ c ∧ c ≤ 61) ∧
    (∀ c ∈ sha384RotationCounts, 0 < c ∧ c < 64 ∧ 1 ≤ c ∧ c ≤ 61) := by
  decide

/-- C10 witness: the range statement applied at concrete table entries,
each hypothesis discharged by decide. -/
theorem c10_rotation_counts_witness :
    (0 < Md5Cpp.S.getD 0 0 ∧ Md5Cpp.S.getD 0 0 < 32 ∧
      4 ≤ Md5Cpp.S.getD 0 0 ∧ Md5Cpp.S.getD 0 0 ≤ 23) ∧
    (0 < (7 : Nat) ∧ (7 : Nat) < 32 ∧ 4 ≤ (7 : Nat) ∧ (7 : Nat) ≤ 23) ∧
    (0 < (1 : Nat) ∧ (1 : Nat) < 32) ∧
    (0 < (7 : Nat) ∧ (7 : Nat) < 32 ∧ 1 ≤ (7 : Nat) ∧ (7 : Nat) ≤ 61) ∧
    (0 < (1 : Nat) ∧ (1 : Nat) < 64 ∧ 1 ≤ (1 : Nat) ∧ (1 : Nat) ≤ 61) :=
  ⟨c10_rotation_counts_in_range.1 0 (by decide),
   c10_rotation_counts_in_range.2.1 (0, 7) (by decide),
   c10_rotation_counts_in_range.2.2.1 1 (by decide),
   c10_rotation_counts_in_range.2.2.2.1 7 (by decide),
   c10_rotation_counts_in_range.2.2.2.2 1 (by decide)⟩

theorem md5_padZeros_spec : ∀ (fuel : Nat) (pm : List Nat),
    (120 - pm.length % 64) % 64 ≤ fuel →
    Md5Cpp.padZeros pm fuel = pm ++ List.replicate ((120 - pm.length % 64) % 64) 0 := by
  intro fuel
  induction fuel with
  | zero =>
    intro pm h
    have h0 : (120 - pm.length % 64) % 64 = 0 := Nat.le_zero.mp h
    simp [Md5Cpp.padZeros, h0]
  | succ n ih =>
    intro pm h
    by_cases hc : pm.length * 8 % 512 = 448
    · have h56 : pm.length % 64 = 56 := by omega
      have h0 : (120 - pm.length % 64) % 64 = 0 := by omega
      simp [Md5Cpp.padZeros, hc, h0]
    · have hne : pm.length % 64 ≠ 56 := by omega
      have hpos : 1 ≤ (120 - pm.length % 64) % 64 := by omega
      have hrec : Md5Cpp.padZeros pm (n + 1) = Md5Cpp.padZeros (pm ++ [0]) n := by
        simp [Md5Cpp.padZeros, hc]
      have hk : (120 - (pm ++ [0]).length % 64) % 64 =
          (120 - pm.length % 64) % 64 - 1 := by
        simp only [List.length_append, List.length_cons, List.length_nil]
        omega
      rw [hrec, ih (pm ++ [0]) (by rw [hk]; omega), hk, List.append_assoc]
      congr 1
      have hrepl : List.replicate ((120 - pm.length % 64) % 64) (0 : Nat) =
          0 :: List.replicate ((120 - pm.length % 64) % 64 - 1) 0 := by
        rw [← List.replicate_succ]
        congr 1
        omega
      rw [hrepl]
      rfl

theorem sha1_padZeros_eq_md5 : ∀ (fuel : Nat) (pm : List Nat),
    Sha1Cpp.padZeros pm fuel = Md5Cpp.padZeros pm fuel := by
  intro fuel
  induction fuel with
  | zero => intro pm; rfl
  | succ n ih =>
    intro pm
    by_cases hc : pm.length * 8 % 512 = 448 <;>
      simp [Sha1Cpp.padZeros, Md5Cpp.padZeros, hc, ih]

theorem sha256_countK_spec : ∀ (fuel length k : Nat),
    (512 - (length + 65 + k) % 512) % 512 ≤ fuel →
    Sha256Cpp.countK length k fuel = k + (512 - (length + 65 + k) % 512) % 512 := by
  intro fuel
  induction fuel with
  | zero =>
    intro length k h
    have h0 : (512 - (length + 65 + k) % 512) % 512 = 0 := Nat.le_zero.mp h
    simp [Sha256Cpp.countK, h0]
  | succ n ih =>
    intro length k h
    by_cases hc : (length + 1 + k + 64) % 512 = 0
    · have h0 : (512 - (length + 65 + k) % 512) % 512 = 0 := by omega
      simp [Sha256Cpp.countK, hc, h0]
    · have hrec : Sha256Cpp.countK length k (n + 1) =
          Sha256Cpp.countK length (k + 1) n := by
        simp [Sha256Cpp.countK, hc]
      have hk : (512 - (length + 65 + (k + 1)) % 512) % 512 =
          (512 - (length + 65 + k) % 512) % 512 - 1 := by omega
      rw [hrec, ih length (k + 1) (by omega)]
      omega

theorem sha384_countK_spec : ∀ (fuel length k : Nat),
    (1024 - (length + 129 + k) % 1024) % 1024 ≤ fuel →
    Sha384Cpp.countK length k fuel = k + (1024 - (length + 129 + k) % 1024) % 1024 := by
  intro fuel
  induction fuel with
  | zero =>
    intro length k h
    have h0 : (1024 - (length + 129 + k) % 1024) % 1024 = 0 := Nat.le_zero.mp h
    simp [Sha384Cpp.countK, h0]
  | succ n ih =>
    intro length k h
    by_cases hc : (length + 1 + k + 128) % 1024 = 0
    · have h0 : (1024 - (length + 129 + k) % 1024) % 1024 = 0 := by omega
      simp [Sha384Cpp.countK, hc, h0]
    · have hrec : Sha384Cpp.countK length k (n + 1) =
          Sha384Cpp.countK length (k + 1) n := by
        simp [Sha384Cpp.countK, hc]
      rw [hrec, ih length (k + 1) (by omega)]
      omega

theorem textBits_length (msg : List Nat) :
    (ShaHeader.TextToBinaryString msg).length = 8 * msg.length := by
  induction msg with
  | nil => rfl
  | cons b bs ih =>
    simp only [ShaHeader.TextToBinaryString, List.flatMap_cons, List.length_append,
      List.length_map, List.length_range, List.length_cons] at ih ⊢
    omega

theorem suffix_drop {α : Type} (X Y : List α) :
    (X ++ Y).drop ((X ++ Y).length - Y.length) = Y := by
  have h : (X ++ Y).length - Y.length = X.length := by simp
  rw [h, List.drop_left]

theorem md5_paddedMessage_structure (msg : List Nat) :
    Md5Cpp.paddedMessage msg =
      (msg ++ [0x80] ++ List.replicate ((120 - (msg.length + 1) % 64) % 64) 0) ++
        Md5Cpp.lengthBytesLE (msg.length * 8 % 18446744073709551616) := by
  have hlen : (msg ++ [0x80]).length = msg.length + 1 := by simp
  rw [Md5Cpp.paddedMessage, md5_padZeros_spec 64 _ (by rw [hlen]; omega), hlen]

theorem sha1_paddedMessage_structure (msg : List Nat) :
    Sha1Cpp.paddedMessage msg =
      (msg ++ [0x80] ++ List.replicate ((120 - (msg.length + 1) % 64) % 64) 0) ++
        Sha1Cpp.lengthBytesBE (msg.length * 8 % 18446744073709551616) := by
  have hlen : (msg ++ [0x80]).length = msg.length + 1 := by simp
  rw [Sha1Cpp.paddedMessage, sha1_padZeros_eq_md5,
    md5_padZeros_spec 64 _ (by rw [hlen]; omega), hlen]

theorem md5_padded_length (msg : List Nat) :
    (Md5Cpp.paddedMessage msg).length % 64 = 0 := by
  rw [md5_paddedMessage_structure]
  simp [Md5Cpp.lengthBytesLE]
  omega

theorem sha1_padded_length (msg : List Nat) :
    (Sha1Cpp.paddedMessage msg).length % 64 = 0 := by
  rw [sha1_paddedMessage_structure]
  simp [Sha1Cpp.lengthBytesBE]
  omega

theorem sha256_paddedBits_structure (msg : List Nat) :
    Sha256Cpp.paddedBits msg =
      (ShaHeader.TextToBinaryString msg ++ [true] ++
        List.replicate (Sha256Cpp.countK (8 * msg.length) 0 512) false) ++
      Sha256Cpp.lengthBitsBE (8 * msg.length) := by
  rw [Sha256Cpp.paddedBits, Sha256Cpp.preProcessing, textBits_length]

theorem sha384_paddedBits_structure (msg : List Nat) :
    Sha384Cpp.paddedBits msg =
      (ShaHeader.TextToBinaryString msg ++ [true] ++
        List.replicate (Sha384Cpp.countK (8 * msg.length) 0 1024) false) ++
      Sha384Cpp.lengthBits128BE (8 * msg.length) := by
  rw [Sha384Cpp.paddedBits, Sha384Cpp.preProcessing, textBits_length]

theorem sha256_padded_length (msg : List Nat) :
    (Sha256Cpp.paddedBits msg).length % 512 = 0 := by
  rw [sha256_paddedBits_structure]
  have hK := sha256_countK_spec 512 (8 * msg.length) 0 (by omega)
  simp [Sha256Cpp.lengthBitsBE, textBits_length, hK]
  omega

theorem sha384_padded_length (msg : List Nat) :
    (Sha384Cpp.paddedBits msg).length % 1024 = 0 := by
  rw [sha384_paddedBits_structure]
  have hK := sha384_countK_spec 1024 (8 * msg.length) 0 (by omega)
  simp [Sha384Cpp.lengthBits128BE, textBits_length, hK]
  omega

theorem lengthBits128_split (len : Nat) :
    Sha384Cpp.lengthBits128BE len =
      List.replicate 64 false ++
        (List.range 64).map (fun t => len >>> (63 - t) &&& 1 == 1) := by
  refine List.ext_getElem (by simp [Sha384Cpp.lengthBits128BE]) ?_
  intro i h1 h2
  have hi128 : i < 128 := by simpa [Sha384Cpp.lengthBits128BE] using h1
  by_cases hi : i < 64
  · rw [List.getElem_append_left (by simpa using hi)]
    simp only [Sha384Cpp.lengthBits128BE, List.getElem_map, List.getElem_range,
      List.getElem_replicate]
    rw [if_neg (by omega)]
  · rw [List.getElem_append_right (by simpa using hi)]
    simp only [Sha384Cpp.lengthBits128BE, List.getElem_map, List.getElem_range,
      List.length_replicate]
    rw [if_pos (by omega), show 127 - i = 63 - (i - 64) from by omega]

theorem c5_length_field_format : ∀ msg : List Nat,
    ((Md5Cpp.paddedMessage msg).drop ((Md5Cpp.paddedMessage msg).length - 8) =
        Md5Cpp.lengthBytesLE (msg.length * 8 % 18446744073709551616) ∧
      (Md5Cpp.paddedMessage msg).length % 64 = 0) ∧
    ((Sha1Cpp.paddedMessage msg).drop ((Sha1Cpp.paddedMessage msg).length - 8) =
        Sha1Cpp.lengthBytesBE (msg.length * 8 % 18446744073709551616) ∧
      (Sha1Cpp.paddedMessage msg).length % 64 = 0) ∧
    ((Sha256Cpp.paddedBits msg).drop ((Sha256Cpp.paddedBits msg).length - 64) =
        Sha256Cpp.lengthBitsBE (8 * msg.length) ∧
      (Sha256Cpp.paddedBits msg).length % 512 = 0) ∧
    ((Sha384Cpp.paddedBits msg).drop ((Sha384Cpp.paddedBits msg).length - 128) =
        Sha384Cpp.lengthBits128BE (8 * msg.length) ∧
      (Sha384Cpp.lengthBits128BE (8 * msg.length)).take 64 = List.replicate 64 false ∧
      (Sha384Cpp.paddedBits msg).length % 1024 = 0) := by
  intro msg
  refine ⟨⟨?_, md5_padded_length msg⟩, ⟨?_, sha1_padded_length msg⟩,
    ⟨?_, sha256_padded_length msg⟩, ⟨?_, ?_, sha384_padded_length msg⟩⟩
  · rw [md5_paddedMessage_structure,
      show (8 : Nat) =
        (Md5Cpp.lengthBytesLE (msg.length * 8 % 18446744073709551616)).length from
        by simp [Md5Cpp.lengthBytesLE]]
    exact suffix_drop _ _
  · rw [sha1_paddedMessage_structure,
      show (8 : Nat) =
        (Sha1Cpp.lengthBytesBE (msg.length * 8 % 18446744073709551616)).length from
        by simp [Sha1Cpp.lengthBytesBE]]
    exact suffix_drop _ _
  · rw [sha256_paddedBits_structure,
      show (64 : Nat) = (Sha256Cpp.lengthBitsBE (8 * msg.length)).length from
        by simp [Sha256Cpp.lengthBitsBE]]
    exact suffix_drop _ _
  · rw [sha384_paddedBits_structure,
      show (128 : Nat) = (Sha384Cpp.lengthBits128BE (8 * msg.length)).length from
        by simp [Sha384Cpp.lengthBits128BE]]
    exact suffix_drop _ _
  · rw [lengthBits128_split]
    simpa using List.take_left (List.replicate 64 false)
      ((List.range 64).map (fun t => 8 * msg.length >>> (63 - t) &&& 1 == 1))

theorem c6_padded_multiple_of_blocksize : ∀ msg : List Nat,
    (Sha256Cpp.paddedBits msg).length % 512 = 0 ∧
    Sha256Cpp.errorBranch (Sha256Cpp.paddedBits msg) = false ∧
    (Sha384Cpp.paddedBits msg).length % 1024 = 0 ∧
    Sha384Cpp.errorBranch (Sha384Cpp.paddedBits msg) = false := by
  intro msg
  refine ⟨sha256_padded_length msg, ?_, sha384_padded_length msg, ?_⟩
  · simp [Sha256Cpp.errorBranch, sha256_padded_length msg]
  · simp [Sha384Cpp.errorBranch, sha384_padded_length msg]

theorem hexDigit_mem (n : Nat) : hexDigit n ∈ hexDigits := by
  rcases h : hexDigits[n]? with _ | c
  · simp [hexDigit, List.getD, h]
    decide
  · have hc := List.getElem?_mem h
    simp [hexDigit, List.getD, h, hc]

theorem bytesToHexString_length (bs : List Nat) :
    (bytesToHexString bs).length = 2 * bs.length := by
  rw [bytesToHexString]
  show (bs.flatMap byteToHexChars).length = 2 * bs.length
  induction bs with
  | nil => rfl
  | cons b t ih =>
    simp only [List.flatMap_cons, List.length_append, ih, byteToHexChars,
      List.length_cons, List.length_nil]
    omega

theorem bytesToHexString_mem (bs : List Nat) :
    ∀ c ∈ (bytesToHexString bs).data, c ∈ hexDigits := by
  intro c hc
  rw [bytesToHexString] at hc
  replace hc : c ∈ bs.flatMap byteToHexChars := hc
  rcases List.mem_flatMap.mp hc with ⟨b, _, hcb⟩
  simp only [byteToHexChars, List.mem_cons, List.not_mem_nil, or_false] at hcb
  rcases hcb with h | h <;> rw [h] <;> exact hexDigit_mem _

theorem all_contains_of_mem (l : List Char) (h : ∀ c ∈ l, c ∈ hexDigits) :
    (l.all fun c => hexDigits.contains c) = true := by
  rw [List.all_eq_true]
  intro c hc
  exact List.elem_eq_true_of_mem (h c hc)

theorem wordToHex8_eq (w : Nat) :
    Sha1Cpp.wordToHex8 w = (specWordBytesBE32 w).flatMap byteToHexChars := by
  have e255 : ∀ x : Nat, x &&& 255 = x % 256 := fun x => by
    have := Nat.and_pow_two_sub_one_eq_mod x 8
    simpa using this
  have e15 : ∀ x : Nat, x &&& 15 = x % 16 := fun x => by
    have := Nat.and_pow_two_sub_one_eq_mod x 4
    simpa using this
  simp only [Sha1Cpp.wordToHex8, specWordBytesBE32, byteToHexChars,
    List.flatMap_cons, List.flatMap_nil, List.append_nil, List.cons_append,
    List.nil_append, e255, e15, Nat.shiftRight_eq_div_pow, List.cons.injEq,
    and_true, Nat.reducePow]
  and_intros <;> exact congrArg hexDigit (by omega)

theorem nibbleValue_cond (bits : List Bool) (i : Nat) :
    ShaHeader.nibbleValue bits i =
      cond (bits.getD i false) 8 0 + cond (bits.getD (i + 1) false) 4 0 +
      cond (bits.getD (i + 2) false) 2 0 + cond (bits.getD (i + 3) false) 1 0 := by
  have h : ∀ b0 b1 b2 b3 : Bool,
      ShaHeader.nibbleValue [b0, b1, b2, b3] 0 =
        cond b0 8 0 + cond b1 4 0 + cond b2 2 0 + cond b3 1 0 := by decide
  have h2 : ShaHeader.nibbleValue bits i =
      ShaHeader.nibbleValue [bits.getD i false, bits.getD (i + 1) false,
        bits.getD (i + 2) false, bits.getD (i + 3) false] 0 := rfl
  rw [h2, h]

theorem cond_bit (a c : Nat) : cond (a % 2 == 1) c 0 = a % 2 * c := by
  rcases Nat.mod_two_eq_zero_or_one a with h | h <;> simp [h]

theorem nibbleValue_append_left (x y : List Bool) (i : Nat) (h : i + 4 ≤ x.length) :
    ShaHeader.nibbleValue (x ++ y) i = ShaHeader.nibbleValue x i := by
  rw [nibbleValue_cond, nibbleValue_cond,
    List.getD_append _ _ _ _ (by omega), List.getD_append _ _ _ _ (by omega),
    List.getD_append _ _ _ _ (by omega), List.getD_append _ _ _ _ (by omega)]

theorem nibbleValue_append_right (x y : List Bool) (i : Nat) (h : x.length ≤ i) :
    ShaHeader.nibbleValue (x ++ y) i = ShaHeader.nibbleValue y (i - x.length) := by
  rw [nibbleValue_cond, nibbleValue_cond,
    List.getD_append_right _ _ _ _ h, List.getD_append_right _ _ _ _ (by omega),
    List.getD_append_right _ _ _ _ (by omega),
    List.getD_append_right _ _ _ _ (by omega),
    show i + 1 - x.length = i - x.length + 1 from by omega,
    show i + 2 - x.length = i - x.length + 2 from by omega,
    show i + 3 - x.length = i - x.length + 3 from by omega]

theorem bitsetToHexChars_forward (bits : List Bool) (n : Nat) :
    ShaHeader.bitsetToHexChars bits (4 * n) =
      (List.range n).map fun u => hexDigit (ShaHeader.nibbleValue bits (4 * u)) := by
  rw [ShaHeader.bitsetToHexChars]
  have hdiv : 4 * n / 4 = n := by omega
  refine List.ext_getElem (by simp [hdiv]) ?_
  intro i h1 h2
  rw [List.getElem_reverse]
  simp only [List.getElem_map, List.getElem_range, List.length_reverse,
    List.length_map, List.length_range, hdiv]
  congr 2
  have hi : i < n := by simpa [hdiv] using h2
  omega

theorem flatMap_length_32 (f : Nat → List Bool) (hf : ∀ w, (f w).length = 32) :
    ∀ ws : List Nat, (ws.flatMap f).length = 32 * ws.length := by
  intro ws
  induction ws with
  | nil => rfl
  | cons w t ih =>
    simp only [List.flatMap_cons, List.length_append, hf, ih, List.length_cons]
    ring

theorem flatMap_length_64 (f : Nat → List Bool) (hf : ∀ w, (f w).length = 64) :
    ∀ ws : List Nat, (ws.flatMap f).length = 64 * ws.length := by
  intro ws
  induction ws with
  | nil => rfl
  | cons w t ih =>
    simp only [List.flatMap_cons, List.length_append, hf, ih, List.length_cons]
    ring

theorem nibChars_flatMap32 (f : Nat → List Bool) (hf : ∀ w, (f w).length = 32) :
    ∀ ws : List Nat,
      (List.range ((ws.flatMap f).length / 4)).map
          (fun u => hexDigit (ShaHeader.nibbleValue (ws.flatMap f) (4 * u))) =
        ws.flatMap fun w =>
          (List.range 8).map fun u => hexDigit (ShaHeader.nibbleValue (f w) (4 * u)) := by
  intro ws
  induction ws with
  | nil => simp
  | cons w t ih =>
    have hlen : (t.flatMap f).length = 32 * t.length := flatMap_length_32 f hf t
    rw [List.flatMap_cons, List.flatMap_cons]
    have hL : ((f w) ++ t.flatMap f).length = 32 + 32 * t.length := by
      simp [hf, hlen]
    rw [hL, show (32 + 32 * t.length) / 4 = 8 + 8 * t.length from by omega,
      List.range_add, List.map_append, List.map_map]
    congr 1
    · apply List.map_congr_left
      intro u hu
      simp only [List.mem_range] at hu
      rw [nibbleValue_append_left _ _ _ (by rw [hf]; omega)]
    · rw [← ih, hlen, show 32 * t.length / 4 = 8 * t.length from by omega]
      apply List.map_congr_left
      intro v hv
      simp only [List.mem_range] at hv
      simp only [Function.comp_apply]
      rw [nibbleValue_append_right _ _ _ (by rw [hf]; omega)]
      congr 2
      rw [hf]
      omega

theorem nibChars_flatMap64 (f : Nat → List Bool) (hf : ∀ w, (f w).length = 64) :
    ∀ ws : List Nat,
      (List.range ((ws.flatMap f).length / 4)).map
          (fun u => hexDigit (ShaHeader.nibbleValue (ws.flatMap f) (4 * u))) =
        ws.flatMap fun w =>
          (List.range 16).map fun u => hexDigit (ShaHeader.nibbleValue (f w) (4 * u)) := by
  intro ws
  induction ws with
  | nil => simp
  | cons w t ih =>
    have hlen : (t.flatMap f).length = 64 * t.length := flatMap_length_64 f hf t
    rw [List.flatMap_cons, List.flatMap_cons]
    have hL : ((f w) ++ t.flatMap f).length = 64 + 64 * t.length := by
      simp [hf, hlen]
    rw [hL, show (64 + 64 * t.length) / 4 = 16 + 16 * t.length from by omega,
      List.range_add, List.map_append, List.map_map]
    congr 1
    · apply List.map_congr_left
      intro u hu
      simp only [List.mem_range] at hu
      rw [nibbleValue_append_left _ _ _ (by rw [hf]; omega)]
    · rw [← ih, hlen, show 64 * t.length / 4 = 16 * t.length from by omega]
      apply List.map_congr_left
      intro v hv
      simp only [List.mem_range] at hv
      simp only [Function.comp_apply]
      rw [nibbleValue_append_right _ _ _ (by rw [hf]; omega)]
      congr 2
      rw [hf]
      omega

theorem wordBitsBE32_getElem (w k : Nat) (hk : k < 32) :
    (wordBitsBE32 w)[k]? = some (w >>> (31 - k) &&& 1 == 1) := by
  simp [wordBitsBE32, List.getElem?_map, List.getElem?_range, hk]

theorem wordBitsBE32_length (w : Nat) : (wordBitsBE32 w).length = 32 := by
  simp [wordBitsBE32]

theorem hexChars_wordBits32 (w : Nat) :
    (List.range 8).map
        (fun u => hexDigit (ShaHeader.nibbleValue (wordBitsBE32 w) (4 * u))) =
      (specWordBytesBE32 w).flatMap byteToHexChars := by
  have e255 : ∀ x : Nat, x &&& 255 = x % 256 := fun x => by
    have := Nat.and_pow_two_sub_one_eq_mod x 8
    simpa using this
  simp only [show List.range 8 = [0, 1, 2, 3, 4, 5, 6, 7] from rfl,
    List.map_cons, List.map_nil, specWordBytesBE32, byteToHexChars,
    List.flatMap_cons, List.flatMap_nil, List.append_nil, List.cons_append,
    List.nil_append]
  simp only [nibbleValue_cond]
  norm_num
  simp [wordBitsBE32_getElem, Option.getD_some]
  simp only [cond_bit]
  and_intros <;>
    exact congrArg hexDigit
      (by simp only [Nat.shiftRight_eq_div_pow, e255]; norm_num; omega)

theorem wordBitsBE64_getElem (w k : Nat) (hk : k < 64) :
    (wordBitsBE64 w)[k]? = some (w >>> (63 - k) &&& 1 == 1) := by
  simp [wordBitsBE64, List.getElem?_map, List.getElem?_range, hk]

theorem wordBitsBE64_length (w : Nat) : (wordBitsBE64 w).length = 64 := by
  simp [wordBitsBE64]

theorem hexChars_wordBits64 (w : Nat) :
    (List.range 16).map
        (fun u => hexDigit (ShaHeader.nibbleValue (wordBitsBE64 w) (4 * u))) =
      (specWordBytesBE64 w).flatMap byteToHexChars := by
  have e255 : ∀ x : Nat, x &&& 255 = x % 256 := fun x => by
    have := Nat.and_pow_two_sub_one_eq_mod x 8
    simpa using this
  simp only [show List.range 16 =
      [0, 1, 2, 3, 4, 5, 6, 7, 8, 9, 10, 11, 12, 13, 14, 15] from rfl,
    List.map_cons, List.map_nil, specWordBytesBE64, byteToHexChars,
    List.flatMap_cons, List.flatMap_nil, List.append_nil, List.cons_append,
    List.nil_append]
  simp only [nibbleValue_cond]
  norm_num
  simp [wordBitsBE64_getElem, Option.getD_some]
  simp only [cond_bit]
  and_intros <;>
    exact congrArg hexDigit
      (by simp only [Nat.shiftRight_eq_div_pow, e255]; norm_num; omega)

theorem md5_formats_spec (msg : List Nat) :
    Md5Cpp.md5 msg =
      bytesToHexString ((md5StateWords msg).flatMap specWordBytesLE32) := by
  rcases hfs : Md5Cpp.finalState msg with ⟨a, b, c, d⟩
  simp [Md5Cpp.md5, md5StateWords, hfs, Md5Cpp.wordBytesLE, specWordBytesLE32]

theorem sha1_formats_spec (msg : List Nat) :
    Sha1Cpp.sha1 msg =
      bytesToHexString ((sha1StateWords msg).flatMap specWordBytesBE32) := by
  rcases hfs : Sha1Cpp.finalState msg with ⟨h0, h1, h2, h3, h4⟩
  rw [Sha1Cpp.sha1, bytesToHexString, sha1StateWords, hfs]
  simp only
  congr 1
  simp only [List.flatMap_cons, List.flatMap_nil, List.append_nil]
  rw [wordToHex8_eq, wordToHex8_eq, wordToHex8_eq, wordToHex8_eq, wordToHex8_eq]
  simp [List.flatMap_append, List.append_assoc]

theorem sha256_formats_spec (msg : List Nat) :
    Sha256Cpp.sha256 msg =
      bytesToHexString
        ((Sha256Cpp.finalWords (Sha256Cpp.paddedBits msg)).flatMap
          specWordBytesBE32) := by
  have h8 : (Sha256Cpp.finalWords (Sha256Cpp.paddedBits msg)).length = 8 := rfl
  have hlen : ((Sha256Cpp.finalWords (Sha256Cpp.paddedBits msg)).flatMap
      wordBitsBE32).length = 256 := by
    rw [flatMap_length_32 wordBitsBE32 wordBitsBE32_length, h8]
  have hnib := nibChars_flatMap32 wordBitsBE32 wordBitsBE32_length
    (Sha256Cpp.finalWords (Sha256Cpp.paddedBits msg))
  rw [hlen] at hnib
  norm_num at hnib
  rw [Sha256Cpp.sha256, Sha256Cpp.processing, ShaHeader.bitsetToHex,
    bytesToHexString]
  congr 1
  rw [show (256 : Nat) = 4 * 64 from rfl, bitsetToHexChars_forward, hnib]
  have hper : (fun w => (List.range 8).map fun u =>
      hexDigit (ShaHeader.nibbleValue (wordBitsBE32 w) (4 * u))) =
      fun w => (specWordBytesBE32 w).flatMap byteToHexChars :=
    funext hexChars_wordBits32
  rw [hper, List.flatMap_assoc]

theorem sha384_formats_spec (msg : List Nat) :
    Sha384Cpp.sha384 msg =
      bytesToHexString
        ((Sha384Cpp.finalWords (Sha384Cpp.paddedBits msg)).flatMap
          specWordBytesBE64) := by
  have h6 : (Sha384Cpp.finalWords (Sha384Cpp.paddedBits msg)).length = 6 := rfl
  have hlen : ((Sha384Cpp.finalWords (Sha384Cpp.paddedBits msg)).flatMap
      wordBitsBE64).length = 384 := by
    rw [flatMap_length_64 wordBitsBE64 wordBitsBE64_length, h6]
  have hnib := nibChars_flatMap64 wordBitsBE64 wordBitsBE64_length
    (Sha384Cpp.finalWords (Sha384Cpp.paddedBits msg))
  rw [hlen] at hnib
  norm_num at hnib
  rw [Sha384Cpp.sha384, Sha384Cpp.processing, ShaHeader.bitsetToHex,
    bytesToHexString]
  congr 1
  rw [show (384 : Nat) = 4 * 96 from rfl, bitsetToHexChars_forward, hnib]
  have hper : (fun w => (List.range 16).map fun u =>
      hexDigit (ShaHeader.nibbleValue (wordBitsBE64 w) (4 * u))) =
      fun w => (specWordBytesBE64 w).flatMap byteToHexChars :=
    funext hexChars_wordBits64
  rw [hper, List.flatMap_assoc]

theorem c8_digest_formatting : ∀ msg : List Nat,
    (Md5Cpp.md5 msg).length = 32 ∧ (Sha1Cpp.sha1 msg).length = 40 ∧
    (Sha256Cpp.sha256 msg).length = 64 ∧ (Sha384Cpp.sha384 msg).length = 96 ∧
    ((Md5Cpp.md5 msg).data.all fun c => hexDigits.contains c) = true ∧
    ((Sha1Cpp.sha1 msg).data.all fun c => hexDigits.contains c) = true ∧
    ((Sha256Cpp.sha256 msg).data.all fun c => hexDigits.contains c) = true ∧
    ((Sha384Cpp.sha384 msg).data.all fun c => hexDigits.contains c) = true ∧
    Md5Cpp.md5 msg =
      bytesToHexString ((md5StateWords msg).flatMap specWordBytesLE32) ∧
    Sha1Cpp.sha1 msg =
      bytesToHexString ((sha1StateWords msg).flatMap specWordBytesBE32) ∧
    Sha256Cpp.sha256 msg =
      bytesToHexString ((Sha256Cpp.finalWords (Sha256Cpp.paddedBits msg)).flatMap
        specWordBytesBE32) ∧
    Sha384Cpp.sha384 msg =
      bytesToHexString ((Sha384Cpp.finalWords (Sha384Cpp.paddedBits msg)).flatMap
        specWordBytesBE64) := by
  intro msg
  have hm := md5_formats_spec msg
  have h1 := sha1_formats_spec msg
  have h2 := sha256_formats_spec msg
  have h3 := sha384_formats_spec msg
  refine ⟨?_, ?_, ?_, ?_, ?_, ?_, ?_, ?_, hm, h1, h2, h3⟩
  · rw [hm, bytesToHexString_length]
    have : ((md5StateWords msg).flatMap specWordBytesLE32).length = 16 := by
      simp [md5StateWords, specWordBytesLE32]
    omega
  · rw [h1, bytesToHexString_length]
    have : ((sha1StateWords msg).flatMap specWordBytesBE32).length = 20 := by
      simp [sha1StateWords, specWordBytesBE32]
    omega
  · rw [h2, bytesToHexString_length]
    have : ((Sha256Cpp.finalWords (Sha256Cpp.paddedBits msg)).flatMap
        specWordBytesBE32).length = 32 := by
      simp [Sha256Cpp.finalWords, specWordBytesBE32]
    omega
  · rw [h3, bytesToHexString_length]
    have : ((Sha384Cpp.finalWords (Sha384Cpp.paddedBits msg)).flatMap
        specWordBytesBE64).length = 48 := by
      simp [Sha384Cpp.finalWords, specWordBytesBE64]
    omega
  · rw [hm]
    exact all_contains_of_mem _ (bytesToHexString_mem _)
  · rw [h1]
    exact all_contains_of_mem _ (bytesToHexString_mem _)
  · rw [h2]
    exact all_contains_of_mem _ (bytesToHexString_mem _)
  · rw [h3]
    exact all_contains_of_mem _ (bytesToHexString_mem _)
